import Mathlib

/-!
Shallow embedding of the stack-based bytecode VM of the `myalian` interpreter
(`src/vm/impl.rs`), together with theorems settling the specification's claims
about it.

Machine integers: the guest language's integers are Rust `i64`.  They are
embedded as `Int` with explicit two's-complement reduction (`wrapI64`) where
the release-profile wrapping of `+`, `-`, `*` matters, and with an explicit
panic outcome for the one division case (`i64::MIN / -1`) where Rust's `/`
overflows in every build profile.

Rust `Rc<Object>` sharing is invisible to structural value semantics except in
the small-integer cache, where the cached/fresh distinction of lines 138-141 of
`impl.rs` is kept explicitly (`Alloc`).
-/

namespace Myalian

/-- Hashable projection of primitive objects (`HashKey` in `src/object`). -/
inductive HashKey where
  | int (v : Int)
  | bool (b : Bool)
  | str (s : String)
deriving DecidableEq, Repr

/-- `CompiledFunction { instructions, num_locals, num_parameters }`; the
instruction bytes are carried opaquely as a list of bytes-as-naturals. -/
structure CompiledFunction where
  instructions : List Nat
  num_locals : Nat
  num_parameters : Nat
deriving DecidableEq, Repr

/-- The tagged runtime value (`Object` in `src/object`).  `array` and `hash`
model the interior-mutable cells by their current contents; `hash` models the
`HashMap` as an association list with unique keys (see `hashInsert`).
A `builtin` holds an index into the builtin registry (the Rust value holds the
function pointer itself; the embedding passes the registry separately). -/
inductive Object where
  | integer (v : Int)
  | boolean (b : Bool)
  | null
  | str (s : String)
  | array (items : List Object)
  | hash (pairs : List (HashKey × Object))
  | compiledFn (f : CompiledFunction)
  | closure (f : CompiledFunction) (free : List Object)
  | builtin (idx : Nat)
deriving Repr

mutual
/-- Structural equality of objects, mirroring Rust's derived `PartialEq`
(`Rc`/`RefCell` compare by content). -/
def objBEq : Object → Object → Bool
  | .integer a, .integer b => a == b
  | .boolean a, .boolean b => a == b
  | .null, .null => true
  | .str a, .str b => a == b
  | .array xs, .array ys => objListBEq xs ys
  | .hash ps, .hash qs => pairListBEq ps qs
  | .compiledFn f, .compiledFn g => f == g
  | .closure f fr, .closure g gr => f == g && objListBEq fr gr
  | .builtin i, .builtin j => i == j
  | _, _ => false

/-- Pointwise structural equality of object sequences. -/
def objListBEq : List Object → List Object → Bool
  | [], [] => true
  | x :: xs, y :: ys => objBEq x y && objListBEq xs ys
  | _, _ => false

/-- Pointwise structural equality of key/value sequences. -/
def pairListBEq : List (HashKey × Object) → List (HashKey × Object) → Bool
  | [], [] => true
  | (k, v) :: xs, (k2, v2) :: ys => k == k2 && objBEq v v2 && pairListBEq xs ys
  | _, _ => false
end

/-- Opcodes of the instructions whose handlers are embedded here
(`Opcode` in `src/compiler/code`). -/
inductive Opcode where
  | add
  | sub
  | mul
  | div
  | not
  | minus
  | equal
  | notEqual
  | greaterThan
  | greaterEq
  | lessThan
  | lessEq
deriving DecidableEq, Repr

/-- Runtime error kinds (`RuntimeError` in `src/object`).  The constructors
used by `src/vm/impl.rs` follow its spelling (`ByZero`, `CustomErrMsg`, ...).
`callingNonFunction` is modelled from the spec's error taxonomy (§7 lists a
dedicated `CallingNonFunction` kind); the enum itself is outside the excerpt,
and the code path in `call_function` uses `CustomErrMsg` instead. -/
inductive RuntimeError where
  | byZero (left right : Object)
  | unSupportedBinOperation (op : Opcode) (left right : Object)
  | unSupportedBinOperator (op : Opcode)
  | unSupportedUnOperation (op : Opcode) (value : Object)
  | unSupportedIndexOperation (container index : Object)
  | unSupportedHashKey (value : Object)
  | wrongArgumentCount (expected got : Nat)
  | customErrMsg (msg : String)
  | callingNonFunction
  | variableHasBeenDeclared (name : String)
deriving Repr

/-- Modelled from the spec: a `Frame` (src/vm/frame.rs, not in the excerpt) is
the activation record `{closure, ip, base_pointer}`; `Frame::new(closure, bp)`
starts with `ip = 0`. -/
structure Frame where
  closure : Object
  ip : Nat
  base_pointer : Nat
deriving Repr

/-- The VM state fields touched by the embedded operations: the operand stack
(a growable vector) with its stack pointer, the globals vector, the frame
stack, and the small-integer cache.  The canonical `null_cache` and
`bool_cache` objects are the structural constants `NULL`, `TRUE`, `FALSE`. -/
structure Vm where
  stack : List Object
  sp : Nat
  globals : List Object
  frames : List Frame
  int_cache : List Object
deriving Repr

/-- The canonical true object (`TRUE` in `src/vm`). -/
def TRUE : Object := .boolean true

/-- The canonical false object (`FALSE` in `src/vm`). -/
def FALSE : Object := .boolean false

/-- The canonical null object (`NULL` in `src/vm`). -/
def NULL : Object := .null

/-- Outcome of a state-mutating VM operation: success, a runtime error (the
Rust method returns `Err` with `self` keeping the mutations made before the
error), or a Rust panic (unrecoverable; no state is carried). -/
inductive VmOutcome where
  | ok (vm : Vm)
  | err (vm : Vm) (e : RuntimeError)
  | panic
deriving Repr

/-- `push_stack` (impl.rs lines 296-303): when `sp` equals the current vector
length the object is appended (the vector grows), otherwise slot `sp` is
overwritten; `sp` is then incremented.  There is no capacity check and no
error path. -/
def push_stack (vm : Vm) (object : Object) : Vm :=
  let vm :=
    if vm.sp = vm.stack.length then
      { vm with stack := vm.stack ++ [object] }
    else
      { vm with stack := vm.stack.set vm.sp object }
  { vm with sp := vm.sp + 1 }

/-- `pop_stack` (impl.rs lines 306-313): decrement `sp` and return the slot at
the new `sp`; with `sp = 0` return the cached `Null` and leave `sp` alone.
Rust indexing would panic above the vector length; under the VM invariant
`sp ≤ stack.length` the `getD` default is never consulted. -/
def pop_stack (vm : Vm) : Vm × Object :=
  if vm.sp > 0 then
    ({ vm with sp := vm.sp - 1 }, vm.stack.getD (vm.sp - 1) Object.null)
  else
    (vm, Object.null)

/-- `push_frame` (impl.rs lines 366-368): `Vec::push`; the last element is the
current frame. -/
def push_frame (vm : Vm) (frame : Frame) : Vm :=
  { vm with frames := vm.frames ++ [frame] }

/-- `execute_not_expression` (impl.rs lines 20-34): the popped value is
compared (`PartialEq`) with the canonical `TRUE`, `FALSE`, `NULL`; the
matching branch pushes `bool_cache_false`, `bool_cache_true`, `null_cache`
respectively, and any other value is an `UnSupportedUnOperation(Not, value)`
error. -/
def execute_not_expression (vm : Vm) (value : Object) : VmOutcome :=
  if objBEq value TRUE then
    VmOutcome.ok (push_stack vm FALSE)
  else if objBEq value FALSE then
    VmOutcome.ok (push_stack vm TRUE)
  else if objBEq value NULL then
    VmOutcome.ok (push_stack vm NULL)
  else
    VmOutcome.err vm (.unSupportedUnOperation .not value)

/-- An empty VM state used as a concrete evaluation point. -/
def vm0 : Vm := { stack := [], sp := 0, globals := [], frames := [], int_cache := [] }

/-- Claim C1, counterexample: popping `Null`, `execute_not_expression` pushes
the canonical `Null` (the `null_cache` branch of lines 25-26), not the
canonical `True` the claim requires: the slot written is `Object.null`, which
differs from `Object.boolean true`. -/
theorem c1_not_null_pushes_null :
    execute_not_expression vm0 Object.null
      = VmOutcome.ok { vm0 with stack := [Object.null], sp := 1 }
    ∧ Object.null ≠ Object.boolean true :=
  ⟨rfl, fun h => Object.noConfusion h⟩

/-- Claim C1, amended: `Not` maps `True` to the canonical `False`, `False` to
the canonical `True`, `Null` to the canonical `Null` (not `True`), and fails
with `UnsupportedUnOperation(Not, value)` on every other value. -/
theorem c1_not_semantics (vm : Vm) (value : Object) :
    execute_not_expression vm value =
      match value with
      | .boolean true => VmOutcome.ok (push_stack vm FALSE)
      | .boolean false => VmOutcome.ok (push_stack vm TRUE)
      | .null => VmOutcome.ok (push_stack vm NULL)
      | v => VmOutcome.err vm (.unSupportedUnOperation .not v) := by
  cases value <;> simp [execute_not_expression, objBEq, TRUE, FALSE, NULL]
  case boolean b => cases b <;> simp [execute_not_expression, objBEq, TRUE, FALSE, NULL]

/-- `pop_and_set_global` (impl.rs lines 316-323): pop the top of stack; if the
index is at least the current globals length, `Vec::push` the value (so the
value is appended at position `len`, whatever the index), otherwise overwrite
`globals[index]`. -/
def pop_and_set_global (vm : Vm) (global_index : Nat) : Vm :=
  let p := pop_stack vm
  if global_index ≥ p.1.globals.length then
    { p.1 with globals := p.1.globals ++ [p.2] }
  else
    { p.1 with globals := p.1.globals.set global_index p.2 }

/-- A one-slot state: stack `[Integer 7]`, `sp = 1`, empty globals. -/
def vmG : Vm := { stack := [Object.integer 7], sp := 1, globals := [], frames := [], int_cache := [] }

/-- Claim C4, counterexample: with empty globals, `SetGlobal(2)` appends the
popped value at position 0 — the globals vector becomes `[Integer 7]` of
length 1, not length 3, and `globals[2]` stays undefined instead of holding
the popped value. -/
theorem c4_set_global_gap :
    (pop_and_set_global vmG 2).globals = [Object.integer 7]
    ∧ (pop_and_set_global vmG 2).globals.get? 2 = none :=
  ⟨rfl, rfl⟩

/-- Claim C4, amended: `SetGlobal(i)` pops the top of stack; if `i` is below
the globals length it overwrites `globals[i]`; otherwise it appends the popped
value at the end, growing the vector by exactly one (to length `len + 1`, not
`i + 1`).  Hence `globals[i]` equals the popped value exactly when
`i ≤ len` held before the operation. -/
theorem c4_set_global_semantics (vm : Vm) (i : Nat) (hsp : 0 < vm.sp) :
    (pop_and_set_global vm i).sp = vm.sp - 1
    ∧ (i < vm.globals.length →
        (pop_and_set_global vm i).globals
          = vm.globals.set i (vm.stack.getD (vm.sp - 1) Object.null))
    ∧ (vm.globals.length ≤ i →
        (pop_and_set_global vm i).globals
          = vm.globals ++ [vm.stack.getD (vm.sp - 1) Object.null])
    ∧ (i ≤ vm.globals.length →
        (pop_and_set_global vm i).globals.get? i
          = some (vm.stack.getD (vm.sp - 1) Object.null))
    ∧ (vm.globals.length < i → (pop_and_set_global vm i).globals.get? i = none) := by
  have hpop : pop_stack vm = ({ vm with sp := vm.sp - 1 }, vm.stack.getD (vm.sp - 1) Object.null) := by
    simp [pop_stack, hsp]
  by_cases hge : vm.globals.length ≤ i
  · refine ⟨?_, ?_, ?_, ?_, ?_⟩
    · simp [pop_and_set_global, hpop, hge]
    · intro h
      omega
    · intro _
      simp [pop_and_set_global, hpop, hge]
    · intro h
      have hi : i = vm.globals.length := Nat.le_antisymm h hge
      subst hi
      simp [pop_and_set_global, hpop, List.get?_concat_length]
    · intro h
      simp only [pop_and_set_global, hpop, ge_iff_le, hge, if_true]
      refine List.get?_eq_none.mpr ?_
      simp only [List.length_append, List.length_cons, List.length_nil]
      omega
  · have hlt : i < vm.globals.length := Nat.lt_of_not_le hge
    refine ⟨?_, ?_, ?_, ?_, ?_⟩
    · simp [pop_and_set_global, hpop, hge]
    · intro _
      simp [pop_and_set_global, hpop, hge]
    · intro h
      omega
    · intro _
      simp only [pop_and_set_global, hpop, ge_iff_le, hge, if_false]
      exact List.get?_set_eq_of_lt _ hlt
    · intro h
      omega

/-- Claim C4, witness: `SetGlobal(0)` on empty globals stores the popped
`Integer 7` at position 0. -/
theorem c4_set_global_semantics_witness :
    (pop_and_set_global vmG 0).globals.get? 0 = some (Object.integer 7) :=
  (c4_set_global_semantics vmG 0 (by decide)).2.2.2.1 (by decide)

/-- `HashMap::insert` on the association-list model of a hash: overwrite the
existing binding of the key if present, otherwise append the pair. -/
def hashInsert (pairs : List (HashKey × Object)) (key : HashKey) (value : Object) :
    List (HashKey × Object) :=
  if pairs.any fun p => p.1 == key then
    pairs.map fun p => if p.1 == key then (key, value) else p
  else
    pairs ++ [(key, value)]

/-- `HashMap::get` on the association-list model of a hash. -/
def hashGet (pairs : List (HashKey × Object)) (key : HashKey) : Option Object :=
  (pairs.find? fun p => p.1 == key).map fun p => p.2

/-- Modelled from the spec: `HashKey::from_object` (src/object, not in the
excerpt) derives a key from an `Integer`, `Boolean` or `String` and fails with
`UnsupportedHashKey` on every other variant (spec §3 and §4.2). -/
def HashKey.from_object : Object → Except RuntimeError HashKey
  | .integer v => .ok (.int v)
  | .boolean b => .ok (.bool b)
  | .str s => .ok (.str s)
  | o => .error (.unSupportedHashKey o)

/-- The key/value-gathering loop of `build_hash` (impl.rs lines 104-111):
`i` walks from `sp - 2 * hash_len` to `sp` in steps of 2 — exactly `count`
iterations, with `count = hash_len` whenever `2 * hash_len ≤ sp` — deriving a
key from the slot at `i` (the first failure aborts the whole operation) and
inserting the slot at `i + 1` under it; later inserts overwrite earlier ones. -/
def build_hash_entries (stack : List Object) (i : Nat) (count : Nat)
    (acc : List (HashKey × Object)) : Except RuntimeError (List (HashKey × Object)) :=
  match count with
  | 0 => .ok acc
  | count + 1 =>
    match HashKey.from_object (stack.getD i Object.null) with
    | .error e => .error e
    | .ok key =>
      build_hash_entries stack (i + 2) count (hashInsert acc key (stack.getD (i + 1) Object.null))

/-- `build_hash` (impl.rs lines 102-115): gather the top `2 * hash_len` slots
as alternating key/value pairs, decrement `sp` by `hash_len` (the code as
written; not by `2 * hash_len`), and push the new hash. -/
def build_hash (vm : Vm) (hash_len : Nat) : VmOutcome :=
  match build_hash_entries vm.stack (vm.sp - 2 * hash_len) hash_len [] with
  | .error e => VmOutcome.err vm e
  | .ok entries => VmOutcome.ok (push_stack { vm with sp := vm.sp - hash_len } (.hash entries))

/-- A state whose top two slots are the key `Integer 1` and value `Integer 2`. -/
def vmKV : Vm :=
  { stack := [Object.integer 1, Object.integer 2], sp := 2, globals := [], frames := [], int_cache := [] }

/-- Claim C2, the code at the failing input: `Hash(1)` over stack
`[Integer 1, Integer 2]` with `sp = 2` builds the right hash, but decrements
`sp` only by `hash_len`, so after the push `sp = 2` — the net stack-pointer
change is `sp - n + 1`, not the specified `sp - 2n + 1 = 1`.  (The hash slot
is written over index 1, the old value slot.) -/
theorem c2_build_hash_sp_evaluation :
    build_hash vmKV 1
      = VmOutcome.ok { vmKV with
          stack := [Object.integer 1, Object.hash [(HashKey.int 1, Object.integer 2)]],
          sp := 2 }
    ∧ (2 : Nat) ≠ 2 - 2 * 1 + 1 :=
  ⟨rfl, by decide⟩

/-- The smallest `i64` value. -/
def i64Min : Int := -(2 ^ 63)

/-- Two's-complement reduction of an integer into `i64` range: the value the
release-profile Rust `+`, `-`, `*` on `i64` produce (the spec's §9 fixes
host-native wrapping as the model of integer arithmetic). -/
def wrapI64 (x : Int) : Int := (x + 2 ^ 63) % 2 ^ 64 - 2 ^ 63

/-- `v as usize` on a 64-bit host: two's-complement reinterpretation of an
`i64` value (negative values land in `[2^63, 2^64)`). -/
def usizeOfI64 (v : Int) : Nat := (v % 2 ^ 64).toNat

/-- `execute_index_operation` (impl.rs lines 188-203): an `Array` container
with an `Integer` index returns the element or `Null` out of range (a negative
index reinterpreted `as usize` is always out of range); a `Hash` container
derives a `HashKey` from the index — the `?` operator propagates the
`UnsupportedHashKey` failure — and returns the mapped value or `Null`; every
remaining combination is an `UnsupportedIndexOperation`. -/
def execute_index_operation (obj index : Object) : Except RuntimeError Object :=
  match obj, index with
  | .array items, .integer i => .ok ((items.get? (usizeOfI64 i)).getD Object.null)
  | .array items, _ => .error (.unSupportedIndexOperation (.array items) index)
  | .hash pairs, _ =>
    match HashKey.from_object index with
    | .error e => .error e
    | .ok key => .ok ((hashGet pairs key).getD Object.null)
  | _, _ => .error (.unSupportedIndexOperation obj index)

/-- Claim C5, counterexample: indexing a `Hash` with a non-hashable index (an
`Array`) fails with `UnsupportedHashKey(index)` — propagated by the `?` on
`HashKey::from_object` — not with `UnsupportedIndexOperation` as the claim
states. -/
theorem c5_hash_unhashable_key :
    execute_index_operation (Object.hash []) (Object.array [])
      = Except.error (RuntimeError.unSupportedHashKey (Object.array []))
    ∧ RuntimeError.unSupportedHashKey (Object.array [])
        ≠ RuntimeError.unSupportedIndexOperation (Object.hash []) (Object.array []) :=
  ⟨rfl, fun h => RuntimeError.noConfusion h⟩

/-- Claim C5, amended: Array+Integer returns the element, or `Null` when the
index (reinterpreted `as usize`) is out of range — in particular for every
negative index; Array+non-Integer fails with `UnsupportedIndexOperation`;
Hash+hashable returns the mapped value, or `Null` when absent; Hash with a
non-hashable index fails with the propagated `UnsupportedHashKey` error (not
`UnsupportedIndexOperation`); every other container fails with
`UnsupportedIndexOperation`. -/
theorem c5_index_operation_semantics :
    (∀ (items : List Object) (i : Int), i64Min ≤ i → i < 2 ^ 63 →
        (items.length : Int) ≤ 2 ^ 63 →
        ((0 ≤ i → i < (items.length : Int) →
            execute_index_operation (.array items) (.integer i)
              = .ok (items.getD i.toNat Object.null))
          ∧ ((i < 0 ∨ (items.length : Int) ≤ i) →
            execute_index_operation (.array items) (.integer i) = .ok Object.null)))
    ∧ (∀ (items : List Object) (index : Object), (∀ v : Int, index ≠ .integer v) →
        execute_index_operation (.array items) index
          = .error (.unSupportedIndexOperation (.array items) index))
    ∧ (∀ (pairs : List (HashKey × Object)) (index : Object) (key : HashKey),
        HashKey.from_object index = .ok key →
        execute_index_operation (.hash pairs) index
          = .ok ((hashGet pairs key).getD Object.null))
    ∧ (∀ (pairs : List (HashKey × Object)) (index : Object) (e : RuntimeError),
        HashKey.from_object index = .error e →
        execute_index_operation (.hash pairs) index = .error e)
    ∧ (∀ (obj index : Object),
        (∀ items, obj ≠ .array items) → (∀ pairs, obj ≠ .hash pairs) →
        execute_index_operation obj index
          = .error (.unSupportedIndexOperation obj index)) := by
  refine ⟨?_, ?_, ?_, ?_, ?_⟩
  · intro items i hlo hhi hlen
    constructor
    · intro h0 hin
      have hu : usizeOfI64 i = i.toNat := by
        simp only [usizeOfI64]
        omega
      have hlt : i.toNat < items.length := by omega
      simp [execute_index_operation, hu, List.getD_eq_get?]
    · intro hout
      have hnone : items[usizeOfI64 i]? = none := by
        refine List.getElem?_eq_none ?_
        rcases hout with hneg | hbig
        · have : (i % 2 ^ 64) = i + 2 ^ 64 := by
            simp only [i64Min] at hlo
            omega
          simp only [usizeOfI64, this]
          simp only [i64Min] at hlo
          omega
        · have h0 : 0 ≤ i := le_trans (by positivity) hbig
          have : (i % 2 ^ 64) = i := by omega
          simp only [usizeOfI64, this]
          omega
      simp [execute_index_operation, hnone]
  · intro items index hne
    cases index <;> first
      | exact absurd rfl (hne _)
      | rfl
  · intro pairs index key h
    simp [execute_index_operation, h]
  · intro pairs index e h
    simp [execute_index_operation, h]
  · intro obj index hna hnh
    cases obj <;> first
      | exact absurd rfl (hna _)
      | exact absurd rfl (hnh _)
      | rfl

/-- Claim C5, witness: indexing the hash `[1 ↦ 42]` with `Integer 1` returns
`Integer 42`. -/
theorem c5_index_operation_semantics_witness :
    execute_index_operation (Object.hash [(HashKey.int 1, Object.integer 42)]) (Object.integer 1)
      = Except.ok (Object.integer 42) :=
  c5_index_operation_semantics.2.2.1 [(HashKey.int 1, Object.integer 42)]
    (Object.integer 1) (HashKey.int 1) rfl

/-- A saturated state: `sp` equal to the whole current stack allocation. -/
def vmFull : Vm :=
  { stack := [Object.integer 0, Object.integer 1], sp := 2, globals := [], frames := [], int_cache := [] }

/-- Claim C3, counterexample: `push_stack` has no capacity check and no error
path — with `sp` equal to the whole current stack size the push simply appends
and succeeds, and `sp` moves past the old size; no `StackOverflow` is raised
anywhere in the push path. -/
theorem c3_push_past_capacity :
    push_stack vmFull (Object.integer 9)
      = { vmFull with stack := [Object.integer 0, Object.integer 1, Object.integer 9], sp := 3 } :=
  rfl

/-- Claim C3, amended: the operand stack is a growable vector with no enforced
capacity: `push_stack` always succeeds and increments `sp`; when `sp` equals
the current length it appends the object (the vector grows), otherwise it
overwrites slot `sp`. -/
theorem c3_push_stack_semantics (vm : Vm) (object : Object) :
    (push_stack vm object).sp = vm.sp + 1
    ∧ (vm.sp = vm.stack.length → (push_stack vm object).stack = vm.stack ++ [object])
    ∧ (vm.sp ≠ vm.stack.length → (push_stack vm object).stack = vm.stack.set vm.sp object) := by
  refine ⟨?_, ?_, ?_⟩
  · by_cases h : vm.sp = vm.stack.length <;> simp [push_stack, h]
  · intro h
    simp [push_stack, h]
  · intro h
    simp [push_stack, h]

/-- Claim C3, witness: pushing onto the saturated `vmFull` appends. -/
theorem c3_push_stack_semantics_witness :
    (push_stack vmFull (Object.integer 9)).stack = vmFull.stack ++ [Object.integer 9] :=
  (c3_push_stack_semantics vmFull (Object.integer 9)).2.1 rfl

/-- Result of materialising an integer: a cache hit returns the shared cached
object (an `Rc` clone in Rust), a miss allocates a fresh object. -/
inductive Alloc where
  | cached (o : Object)
  | fresh (o : Object)
deriving Repr

/-- The object an `Alloc` stands for. -/
def Alloc.obj : Alloc → Object
  | .cached o => o
  | .fresh o => o

/-- The small-integer cache consultation of `execute_binary_operation`
(impl.rs lines 138-141): `int_cache.get(r as usize)` — `None` allocates a
fresh `Integer(r)` (every negative `r` reinterprets to an index at or above
`2^63`, far outside the cache), `Some` returns the shared cached object. -/
def materializeInt (int_cache : List Object) (r : Int) : Alloc :=
  match int_cache.get? (usizeOfI64 r) with
  | none => .fresh (.integer r)
  | some v => .cached v

/-- The wrapped value always lies in `i64` range. -/
theorem wrapI64_mem (x : Int) : i64Min ≤ wrapI64 x ∧ wrapI64 x < 2 ^ 63 := by
  unfold wrapI64 i64Min
  constructor <;> omega

/-- Truncating division of in-range `i64` values stays in range, except at the
excluded overflow input `i64::MIN / -1`. -/
theorem tdiv_mem (a b : Int) (ha1 : i64Min ≤ a) (ha2 : a < 2 ^ 63) (hb : b ≠ 0)
    (hex : ¬(a = i64Min ∧ b = -1)) : i64Min ≤ a.tdiv b ∧ a.tdiv b < 2 ^ 63 := by
  have habs : (a.tdiv b).natAbs = a.natAbs / b.natAbs := Int.natAbs_tdiv a b
  by_cases hb2 : b.natAbs = 1
  · have hb3 : b = 1 ∨ b = -1 := by omega
    rcases hb3 with rfl | rfl
    · rw [Int.tdiv_one]
      exact ⟨ha1, ha2⟩
    · have ha : a ≠ i64Min := fun h => hex ⟨h, rfl⟩
      have hval : a.tdiv (-1) = -a := by
        rw [show ((-1 : Int)) = -(1 : Int) by rfl, Int.tdiv_neg, Int.tdiv_one]
      rw [hval]
      simp only [i64Min] at ha1 ha ⊢
      omega
  · have hb4 : 2 ≤ b.natAbs := by omega
    have h1 : a.natAbs / b.natAbs ≤ a.natAbs / 2 := Nat.div_le_div_left hb4 (by omega)
    have h2 : a.natAbs ≤ 2 ^ 63 := by
      simp only [i64Min] at ha1
      omega
    have h3 : a.natAbs / 2 ≤ 2 ^ 62 := by omega
    have h4 : (a.tdiv b).natAbs ≤ 2 ^ 62 := by
      rw [habs]
      exact le_trans h1 h3
    simp only [i64Min]
    omega

/-- With a well-formed small-integer cache (entry `k` holding `Integer k`) of
size at most `2^63`, the materialised object for an in-range result `r` is
`Integer(r)`, cache hit or miss. -/
theorem materializeInt_obj (cache : List Object) (r : Int)
    (hc : ∀ k : Nat, k < cache.length → cache.get? k = some (.integer k))
    (hN : (cache.length : Int) ≤ 2 ^ 63) (hlo : i64Min ≤ r) (hhi : r < 2 ^ 63) :
    (materializeInt cache r).obj = Object.integer r := by
  unfold materializeInt
  by_cases h0 : 0 ≤ r
  · have hu : usizeOfI64 r = r.toNat := by
      simp only [usizeOfI64]
      omega
    by_cases hin : r.toNat < cache.length
    · rw [hu, hc r.toNat hin]
      simp [Alloc.obj, Int.toNat_of_nonneg h0]
    · have hnone : cache.get? (usizeOfI64 r) = none := by
        rw [hu]
        exact List.get?_eq_none.mpr (by omega)
      rw [hnone]
      rfl
  · have hnone : cache.get? (usizeOfI64 r) = none := by
      refine List.get?_eq_none.mpr ?_
      have hm : r % 2 ^ 64 = r + 2 ^ 64 := by
        simp only [i64Min] at hlo
        omega
      simp only [usizeOfI64, hm]
      simp only [i64Min] at hlo
      omega
    rw [hnone]
    rfl

/-- `execute_binary_operation` (impl.rs lines 118-186): pop `right`, then pop
`left`.  On two integers, `Add`/`Sub`/`Mul` compute with release-profile
wrapping, and `Div` checks the divisor for zero (`ByZero(left, right)`) before
Rust `/`, which truncates toward zero and overflows (panics, in every build
profile) on the single input `i64::MIN / -1`; the integer result is
materialised through the small-integer cache and pushed.  `Add` on
`(String, String)`, `(Integer, String)`, `(String, Integer)` concatenates with
decimal rendering of the integer; any other opcode on those pairs is an
`UnSupportedBinOperation`, a non-arithmetic opcode on two integers is an
`UnSupportedBinOperator`, and every remaining pair is an
`UnSupportedBinOperation`. -/
def execute_binary_operation (vm : Vm) (op : Opcode) : VmOutcome :=
  let p1 := pop_stack vm
  let p2 := pop_stack p1.1
  let right := p1.2
  let left := p2.2
  let vm := p2.1
  match left, right with
  | .integer left_val, .integer right_val =>
    match op with
    | .add =>
      VmOutcome.ok (push_stack vm (materializeInt vm.int_cache (wrapI64 (left_val + right_val))).obj)
    | .sub =>
      VmOutcome.ok (push_stack vm (materializeInt vm.int_cache (wrapI64 (left_val - right_val))).obj)
    | .mul =>
      VmOutcome.ok (push_stack vm (materializeInt vm.int_cache (wrapI64 (left_val * right_val))).obj)
    | .div =>
      if right_val = 0 then
        VmOutcome.err vm (.byZero (.integer left_val) (.integer right_val))
      else if left_val = i64Min ∧ right_val = -1 then
        VmOutcome.panic
      else
        VmOutcome.ok (push_stack vm (materializeInt vm.int_cache (left_val.tdiv right_val)).obj)
    | _ => VmOutcome.err vm (.unSupportedBinOperator op)
  | .str left_val, .str right_val =>
    match op with
    | .add => VmOutcome.ok (push_stack vm (.str (left_val ++ right_val)))
    | _ => VmOutcome.err vm (.unSupportedBinOperation op (.str left_val) (.str right_val))
  | .integer left_val, .str right_val =>
    match op with
    | .add => VmOutcome.ok (push_stack vm (.str (toString left_val ++ right_val)))
    | _ => VmOutcome.err vm (.unSupportedBinOperation op (.integer left_val) (.str right_val))
  | .str left_val, .integer right_val =>
    match op with
    | .add => VmOutcome.ok (push_stack vm (.str (left_val ++ toString right_val)))
    | _ => VmOutcome.err vm (.unSupportedBinOperation op (.str left_val) (.integer right_val))
  | l, r => VmOutcome.err vm (.unSupportedBinOperation op l r)

/-- A state whose top two slots are `Integer(i64::MIN)` and `Integer(-1)`. -/
def vmMinDiv : Vm :=
  { stack := [Object.integer (-(2 ^ 63)), Object.integer (-1)], sp := 2,
    globals := [], frames := [], int_cache := [] }

/-- Claim C6, counterexample: `Div` at the operand pair `(i64::MIN, -1)` does
not compute with wrapping semantics — Rust's `/` overflows there (a panic in
every build profile), while wrapping two's-complement division would push
`Integer(i64::MIN)` after the two pops. -/
theorem c6_min_div_minus_one :
    execute_binary_operation vmMinDiv Opcode.div = VmOutcome.panic
    ∧ VmOutcome.panic
        ≠ VmOutcome.ok (push_stack { vmMinDiv with sp := 0 } (Object.integer i64Min)) :=
  ⟨rfl, fun h => VmOutcome.noConfusion h⟩

/-- Claim C6, amended: on two in-range integer operands, `Add`, `Sub`, `Mul`
push the two's-complement wrapped result; `Div` with a zero right operand
fails with `ByZero(left, right)`; `Div` otherwise pushes the quotient
truncated toward zero — except at `(i64::MIN, -1)`, where the division
overflows (panics) instead of wrapping. -/
theorem c6_integer_arithmetic (vm : Vm) (a b : Int)
    (hst : vm.stack.getD (vm.sp - 1) Object.null = .integer b)
    (hsn : vm.stack.getD (vm.sp - 2) Object.null = .integer a)
    (hsp : 2 ≤ vm.sp)
    (hc : ∀ k : Nat, k < vm.int_cache.length → vm.int_cache.get? k = some (.integer k))
    (hN : (vm.int_cache.length : Int) ≤ 2 ^ 63)
    (ha1 : i64Min ≤ a) (ha2 : a < 2 ^ 63) (hb1 : i64Min ≤ b) (hb2 : b < 2 ^ 63) :
    (execute_binary_operation vm .add
        = VmOutcome.ok (push_stack { vm with sp := vm.sp - 2 } (.integer (wrapI64 (a + b)))))
    ∧ (execute_binary_operation vm .sub
        = VmOutcome.ok (push_stack { vm with sp := vm.sp - 2 } (.integer (wrapI64 (a - b)))))
    ∧ (execute_binary_operation vm .mul
        = VmOutcome.ok (push_stack { vm with sp := vm.sp - 2 } (.integer (wrapI64 (a * b)))))
    ∧ (b = 0 → execute_binary_operation vm .div
        = VmOutcome.err { vm with sp := vm.sp - 2 } (.byZero (.integer a) (.integer b)))
    ∧ (b ≠ 0 → ¬(a = i64Min ∧ b = -1) → execute_binary_operation vm .div
        = VmOutcome.ok (push_stack { vm with sp := vm.sp - 2 } (.integer (a.tdiv b))))
    ∧ (a = i64Min → b = -1 → execute_binary_operation vm .div = VmOutcome.panic) := by
  have hp1 : 0 < vm.sp := by omega
  have hpop1 : pop_stack vm = ({ vm with sp := vm.sp - 1 }, Object.integer b) := by
    simp [pop_stack, hp1]
    simpa using hst
  have hp2 : 0 < vm.sp - 1 := by omega
  have hs12 : vm.sp - 1 - 1 = vm.sp - 2 := by omega
  have hpop2 : pop_stack { vm with sp := vm.sp - 1 }
      = ({ vm with sp := vm.sp - 2 }, Object.integer a) := by
    simp [pop_stack, hp2, hs12]
    simpa using hsn
  refine ⟨?_, ?_, ?_, ?_, ?_, ?_⟩
  · simp [execute_binary_operation, hpop1, hpop2,
      materializeInt_obj vm.int_cache (wrapI64 (a + b)) hc hN
        (wrapI64_mem (a + b)).1 (wrapI64_mem (a + b)).2]
  · simp [execute_binary_operation, hpop1, hpop2,
      materializeInt_obj vm.int_cache (wrapI64 (a - b)) hc hN
        (wrapI64_mem (a - b)).1 (wrapI64_mem (a - b)).2]
  · simp [execute_binary_operation, hpop1, hpop2,
      materializeInt_obj vm.int_cache (wrapI64 (a * b)) hc hN
        (wrapI64_mem (a * b)).1 (wrapI64_mem (a * b)).2]
  · intro hz
    subst hz
    simp [execute_binary_operation, hpop1, hpop2]
  · intro hz hex
    simp [execute_binary_operation, hpop1, hpop2, hz, hex,
      materializeInt_obj vm.int_cache (a.tdiv b) hc hN
        (tdiv_mem a b ha1 ha2 hz hex).1 (tdiv_mem a b ha1 ha2 hz hex).2]
  · intro hmin hneg
    subst hmin
    subst hneg
    simp [execute_binary_operation, hpop1, hpop2]

/-- A state whose top two slots are `Integer 6` and `Integer 3`. -/
def vmDiv : Vm :=
  { stack := [Object.integer 6, Object.integer 3], sp := 2,
    globals := [], frames := [], int_cache := [] }

/-- Claim C6, witness: dividing `6` by `3` pops both operands and pushes
`Integer 2`. -/
theorem c6_integer_arithmetic_witness :
    execute_binary_operation vmDiv .div
      = VmOutcome.ok (push_stack { vmDiv with sp := 0 } (Object.integer 2)) :=
  (c6_integer_arithmetic vmDiv 6 3 rfl rfl (by decide)
    (by intro k hk; exact absurd hk (by simp [vmDiv])) (by decide)
    (by decide) (by decide) (by decide) (by decide)).2.2.2.2.1
    (by decide) (by decide)

/-- Claim C9: with a well-formed small-integer cache — entry `k` holds the
shared `Integer(k)` object, cache size at most `2^63` — every in-range integer
arithmetic result `r` materialises as `Integer(r)`; a result in `[0, N)`
returns the shared cached object, and a result outside `[0, N)` — in
particular every negative result — is a fresh allocation. -/
theorem c9_int_cache_semantics (cache : List Object) (r : Int)
    (hc : ∀ k : Nat, k < cache.length → cache.get? k = some (.integer k))
    (hN : (cache.length : Int) ≤ 2 ^ 63) (hlo : i64Min ≤ r) (hhi : r < 2 ^ 63) :
    (materializeInt cache r).obj = Object.integer r
    ∧ (0 ≤ r → r < (cache.length : Int) →
        materializeInt cache r = Alloc.cached (Object.integer r))
    ∧ (r < 0 ∨ (cache.length : Int) ≤ r →
        materializeInt cache r = Alloc.fresh (Object.integer r)) := by
  refine ⟨materializeInt_obj cache r hc hN hlo hhi, ?_, ?_⟩
  · intro h0 hin
    have hu : usizeOfI64 r = r.toNat := by
      simp only [usizeOfI64]
      omega
    have hlt : r.toNat < cache.length := by omega
    unfold materializeInt
    rw [hu, hc r.toNat hlt]
    simp [Int.toNat_of_nonneg h0]
  · intro hout
    have hnone : cache.get? (usizeOfI64 r) = none := by
      refine List.get?_eq_none.mpr ?_
      rcases hout with hneg | hbig
      · simp only [i64Min] at hlo
        have hm : r % 2 ^ 64 = r + 2 ^ 64 := by omega
        simp only [usizeOfI64, hm]
        omega
      · have h0 : 0 ≤ r := le_trans (by positivity) hbig
        have hm : r % 2 ^ 64 = r := by omega
        simp only [usizeOfI64, hm]
        omega
    unfold materializeInt
    rw [hnone]

/-- Claim C9, witness: with the two-entry cache `[Integer 0, Integer 1]`, the
result `1` is served from the cache and the result `5` is allocated fresh;
both materialise as the right integer. -/
theorem c9_int_cache_semantics_witness :
    materializeInt [Object.integer 0, Object.integer 1] 1
      = Alloc.cached (Object.integer 1) :=
  (c9_int_cache_semantics [Object.integer 0, Object.integer 1] 1
    (by
      intro k hk
      simp only [List.length_cons, List.length_nil] at hk
      interval_cases k <;> rfl)
    (by norm_num) (by norm_num [i64Min]) (by norm_num)).2.1 (by norm_num) (by norm_num)

/-- `call_function` (impl.rs lines 240-277): first `sp -= arg_nums`; the slot
just below the new `sp` (`stack[sp - 1]`) is the callee.  A `Closure` callee
checks the arity (`WrongArgumentCount(num_parameters, arg_nums)` on mismatch,
with no frame pushed), pushes a frame whose `base_pointer` is the decremented
`sp`, and advances `sp` by `num_locals`.  A `Builtin` callee gets the
`arg_nums` slots `[sp, sp + arg_nums)` collected and passed through unchanged
— no arity check — then `sp -= 1` and the builtin's result is pushed.  Every
other callee errors with `CustomErrMsg("calling non-function")`.  The builtin
registry is passed explicitly (the Rust `Object::Builtin` carries the function
pointer itself). -/
def call_function (builtins : Nat → List Object → Except RuntimeError Object)
    (vm : Vm) (arg_nums : Nat) : VmOutcome :=
  let vm := { vm with sp := vm.sp - arg_nums }
  match vm.stack.getD (vm.sp - 1) Object.null with
  | Object.closure f free =>
    if arg_nums ≠ f.num_parameters then
      VmOutcome.err vm (.wrongArgumentCount f.num_parameters arg_nums)
    else
      VmOutcome.ok (push_frame { vm with sp := vm.sp + f.num_locals }
        { closure := Object.closure f free, ip := 0, base_pointer := vm.sp })
  | Object.builtin idx =>
    match builtins idx ((List.range arg_nums).map fun i => vm.stack.getD (vm.sp + i) Object.null) with
    | .error e => VmOutcome.err vm e
    | .ok r => VmOutcome.ok (push_stack { vm with sp := vm.sp - 1 } r)
  | _ => VmOutcome.err vm (.customErrMsg "calling non-function")

/-- An empty builtin registry for concrete evaluations. -/
def builtins0 : Nat → List Object → Except RuntimeError Object :=
  fun _ _ => .error (.customErrMsg "no builtin")

/-- A state whose only slot, the callee of a zero-argument call, is an
integer. -/
def vmNF : Vm := { stack := [Object.integer 1], sp := 1, globals := [], frames := [], int_cache := [] }

/-- Claim C7, counterexample: calling a non-function (an `Integer` callee)
fails with `CustomErrMsg("calling non-function")` — the catch-all string kind
of line 270 — which is not the dedicated `CallingNonFunction` kind the claim
names. -/
theorem c7_non_function_custom_msg :
    call_function builtins0 vmNF 0
      = VmOutcome.err vmNF (RuntimeError.customErrMsg "calling non-function")
    ∧ RuntimeError.customErrMsg "calling non-function" ≠ RuntimeError.callingNonFunction :=
  ⟨rfl, fun h => RuntimeError.noConfusion h⟩

/-- Claim C7, amended: for every `Call(n)` whose callee slot holds neither a
`Closure` nor a `Builtin`, the call fails with
`CustomErrMsg("calling non-function")` (after the initial `sp -= n`). -/
theorem c7_non_function_semantics (builtins : Nat → List Object → Except RuntimeError Object)
    (vm : Vm) (n : Nat)
    (hcl : ∀ f free, vm.stack.getD (vm.sp - n - 1) Object.null ≠ Object.closure f free)
    (hbi : ∀ idx, vm.stack.getD (vm.sp - n - 1) Object.null ≠ Object.builtin idx) :
    call_function builtins vm n
      = VmOutcome.err { vm with sp := vm.sp - n } (.customErrMsg "calling non-function") := by
  cases hsc : vm.stack.getD (vm.sp - n - 1) Object.null <;>
    simp_all [call_function]

/-- Claim C7, witness: a `Call(1)` on a `Null` callee with one argument. -/
theorem c7_non_function_semantics_witness :
    call_function builtins0
      { stack := [Object.null, Object.integer 3], sp := 2,
        globals := [], frames := [], int_cache := [] } 1
      = VmOutcome.err
          { stack := [Object.null, Object.integer 3], sp := 1,
            globals := [], frames := [], int_cache := [] }
          (.customErrMsg "calling non-function") :=
  c7_non_function_semantics builtins0
    { stack := [Object.null, Object.integer 3], sp := 2,
      globals := [], frames := [], int_cache := [] } 1
    (fun _ _ h => Object.noConfusion h) (fun _ h => Object.noConfusion h)

/-- Claim C8: a `Call(n)` on a `Closure` callee with the wrong argument count
fails with `WrongArgumentCount(num_parameters, n)` and pushes no frame (the
frame stack of the error state is unchanged); with the right count it pushes
a frame with `base_pointer = sp - n` (`sp` as before the call), leaves the
stack slots — and so the `n` arguments at `[base_pointer, base_pointer + n)` —
untouched, and sets `sp` to `base_pointer + num_locals`. -/
theorem c8_call_closure_semantics (builtins : Nat → List Object → Except RuntimeError Object)
    (vm : Vm) (n : Nat) (f : CompiledFunction) (free : List Object)
    (hcal : vm.stack.getD (vm.sp - n - 1) Object.null = Object.closure f free)
    (hn : n + 1 ≤ vm.sp) :
    (n ≠ f.num_parameters →
      call_function builtins vm n
        = VmOutcome.err { vm with sp := vm.sp - n }
            (.wrongArgumentCount f.num_parameters n))
    ∧ (n = f.num_parameters →
      call_function builtins vm n
        = VmOutcome.ok { vm with
            sp := vm.sp - n + f.num_locals,
            frames := vm.frames ++
              [{ closure := Object.closure f free, ip := 0, base_pointer := vm.sp - n }] }) := by
  constructor
  · intro hne
    simp only [call_function, hcal]
    simp [hne]
  · intro he
    simp only [call_function, push_frame, hcal]
    simp [he]

/-- A closure taking one parameter with three local slots. -/
def fn1 : CompiledFunction := { instructions := [], num_locals := 3, num_parameters := 1 }

/-- A state holding the closure `fn1` and one argument for it. -/
def vmC : Vm :=
  { stack := [Object.closure fn1 [], Object.integer 5], sp := 2,
    globals := [], frames := [], int_cache := [] }

/-- Claim C8, witness: calling `fn1` with its one argument pushes the frame
with `base_pointer = 1` and reserves the three local slots (`sp = 4`). -/
theorem c8_call_closure_semantics_witness :
    call_function builtins0 vmC 1
      = VmOutcome.ok { vmC with
          sp := 4,
          frames := [{ closure := Object.closure fn1 [], ip := 0, base_pointer := 1 }] } :=
  (c8_call_closure_semantics builtins0 vmC 1 fn1 [] rfl (by decide)).2 rfl

/-- Claim C10: a `Call(n)` on a `Builtin` callee performs no arity check: for
every `n` the argument slots `[sp - n, sp)` are collected in order and handed
to the host function unchanged; a success replaces the call window with the
returned value, an `Err` of the builtin propagates as the call's error, and
every error of the call is the builtin's own — so the VM itself never raises
`WrongArgumentCount` on this path. -/
theorem c10_call_builtin_semantics (builtins : Nat → List Object → Except RuntimeError Object)
    (vm : Vm) (n idx : Nat)
    (hcal : vm.stack.getD (vm.sp - n - 1) Object.null = Object.builtin idx)
    (hn : n + 1 ≤ vm.sp) :
    (∀ r, builtins idx ((List.range n).map fun i => vm.stack.getD (vm.sp - n + i) Object.null)
          = .ok r →
      call_function builtins vm n
        = VmOutcome.ok (push_stack { vm with sp := vm.sp - n - 1 } r))
    ∧ (∀ e, builtins idx ((List.range n).map fun i => vm.stack.getD (vm.sp - n + i) Object.null)
          = .error e →
      call_function builtins vm n = VmOutcome.err { vm with sp := vm.sp - n } e)
    ∧ (∀ vm' e, call_function builtins vm n = VmOutcome.err vm' e →
      builtins idx ((List.range n).map fun i => vm.stack.getD (vm.sp - n + i) Object.null)
        = .error e) := by
  refine ⟨?_, ?_, ?_⟩
  · intro r h
    simp only [call_function, hcal, h]
  · intro e h
    simp only [call_function, hcal, h]
  · intro vm' e h
    cases hbr : builtins idx ((List.range n).map fun i => vm.stack.getD (vm.sp - n + i) Object.null)
    case error e' =>
      simp only [call_function, hcal, hbr] at h
      injection h with h1 h2
      exact congrArg Except.error h2
    case ok r =>
      simp only [call_function, hcal, hbr] at h
      exact VmOutcome.noConfusion h

/-- A builtin computing the number of its arguments. -/
def builtinsLen : Nat → List Object → Except RuntimeError Object :=
  fun _ args => .ok (.integer args.length)

/-- A state with a builtin callee and two arguments. -/
def vmB : Vm :=
  { stack := [Object.builtin 0, Object.integer 5, Object.integer 6], sp := 3,
    globals := [], frames := [], int_cache := [] }

/-- Claim C10, witness: calling the arity-counting builtin with two arguments
— an arbitrary count, unchecked — returns `Integer 2` into the call window. -/
theorem c10_call_builtin_semantics_witness :
    call_function builtinsLen vmB 2
      = VmOutcome.ok (push_stack { vmB with sp := 0 } (Object.integer 2)) :=
  (c10_call_builtin_semantics builtinsLen vmB 2 0 rfl (by decide)).1 (Object.integer 2) rfl

end Myalian
